import Mathlib

/-!
Shallow embedding of the simpleblockchain ledger engine.

The TypeScript sources embedded here are the transaction/UTXO module
(`transaction.ts`) and the chain engine (`blockchain.ts`, concatenated after
`p2p.ts` in the source bundle).  External libraries are modelled as abstract
parameters gathered in `Env`:
  * `CryptoJS.SHA256` (crypto-js)  ->  `Env.sha256`
  * `ec.keyFromPublic(...).verify` (elliptic, secp256k1)  ->  `Env.ecVerify`
  * `new Date()` inside `getCurrentTimestamp`  ->  `Env.now`
JavaScript numbers are modelled as `Int` (all arithmetic performed by the
engine on them is integral); JS strings as `String`; JS arrays as `List`;
a JS function that can also return `null`/`undefined` as `Option`.
-/

/-- Ambient effects of the engine: the two external cryptographic primitives
and the wall clock, all opaque to the repository's own code. -/
structure Env where
  sha256 : String → String
  ecVerify : String → String → String → Bool
  now : Int

/-- transaction.ts: `COINBASE_AMOUNT` (the fixed mining reward). -/
def COINBASE_AMOUNT : Int := 50

/-- transaction.ts: class `UnspentTxOut`. -/
structure UnspentTxOut where
  txOutId : String
  txOutIndex : Int
  address : String
  amount : Int
deriving DecidableEq, Repr

/-- transaction.ts: class `TxIn`. -/
structure TxIn where
  txOutId : String
  txOutIndex : Int
  signature : String
deriving DecidableEq, Repr

/-- transaction.ts: class `TxOut`. -/
structure TxOut where
  address : String
  amount : Int
deriving DecidableEq, Repr

/-- transaction.ts: class `Transaction`. -/
structure Transaction where
  id : String
  txIns : List TxIn
  txOuts : List TxOut
deriving DecidableEq, Repr

/-- transaction.ts: `getTransactionId` — SHA256 of the concatenation of every
txIn's `txOutId + txOutIndex` followed by every txOut's `address + amount`
(JS `+` on a string and a number stringifies the number in decimal, which is
what `toString` on `Int` produces). -/
def getTransactionId (env : Env) (transaction : Transaction) : String :=
  let txInContent : String :=
    (transaction.txIns.map (fun txIn => txIn.txOutId ++ toString txIn.txOutIndex)).foldl
      (· ++ ·) ""
  let txOutContent : String :=
    (transaction.txOuts.map (fun txOut => txOut.address ++ toString txOut.amount)).foldl
      (· ++ ·) ""
  env.sha256 (txInContent ++ txOutContent)

/-- transaction.ts: `findUnspentTxOut` — `Array.find` over the UTXO list. -/
def findUnspentTxOut (transactionId : String) (index : Int)
    (aUnspentTxOuts : List UnspentTxOut) : Option UnspentTxOut :=
  aUnspentTxOuts.find? (fun uTxO => uTxO.txOutId == transactionId && uTxO.txOutIndex == index)

/-- transaction.ts: `getTxInAmount`.  In the source a failed lookup would
dereference `undefined` and throw; the call site (`validateTransaction`) only
reaches this after `validateTxIn` has confirmed every lookup succeeds, so the
`none` branch below is unreachable there and is given the inert value 0. -/
def getTxInAmount (txIn : TxIn) (aUnspentTxOuts : List UnspentTxOut) : Int :=
  match findUnspentTxOut txIn.txOutId txIn.txOutIndex aUnspentTxOuts with
  | some uTxO => uTxO.amount
  | none => 0

/-- transaction.ts: `validateTxIn` — resolve the referenced UTXO (absent ⇒
false) and verify the signature over `transaction.id` under the referenced
output's address (public key). -/
def validateTxIn (env : Env) (txIn : TxIn) (transaction : Transaction)
    (aUnspentTxOuts : List UnspentTxOut) : Bool :=
  match aUnspentTxOuts.find?
      (fun uTxO => uTxO.txOutId == txIn.txOutId && uTxO.txOutIndex == txIn.txOutIndex) with
  | none => false
  | some referencedUTxOut => env.ecVerify referencedUTxOut.address transaction.id txIn.signature

/-- transaction.ts: `isValidAddress` — exactly 130 characters, all hexadecimal
(the regex `^[a-fA-F0-9]+$`; nonemptiness is implied by the length test which
runs first), starting with `04`. -/
def isValidAddress (address : String) : Bool :=
  if address.length ≠ 130 then false
  else if ¬ (address.toList.all fun c =>
      c.isDigit || ('a' ≤ c && c ≤ 'f') || ('A' ≤ c && c ≤ 'F')) then false
  else if ¬ (address.startsWith "04") then false
  else true

/-- transaction.ts: `isValidTxInStructure`.  The source performs `typeof`
checks on the three fields; for the typed values of this embedding they always
hold, so the function is constantly true here. -/
def isValidTxInStructure (_txIn : TxIn) : Bool := true

/-- transaction.ts: `isValidTxOutStructure` — the `typeof` checks always hold
for typed values; the address-validity check remains. -/
def isValidTxOutStructure (txOut : TxOut) : Bool :=
  isValidAddress txOut.address

/-- Modelled from the spec: `isValidTransactionStructure` is referenced by
`validateTransaction` but its definition is not among the sources.  Per the
spec ("fails if structural shape is invalid (wrong field types, missing
arrays)") it checks the field types of the transaction and of every element of
its txIn/txOut arrays, which for typed values reduces to the per-element
structure checks defined above. -/
def isValidTransactionStructure (transaction : Transaction) : Bool :=
  transaction.txIns.all isValidTxInStructure && transaction.txOuts.all isValidTxOutStructure

/-- transaction.ts: `validateTransaction` — structure, then id, then every
txIn, then input/output sum equality (the sums via `map` + `reduce(+, 0)`). -/
def validateTransaction (env : Env) (transaction : Transaction)
    (aUnspentTxOuts : List UnspentTxOut) : Bool :=
  if ¬ (isValidTransactionStructure transaction = true) then false
  else if getTransactionId env transaction ≠ transaction.id then false
  else
    let hasValidTxIns : Bool :=
      (transaction.txIns.map (fun txIn => validateTxIn env txIn transaction aUnspentTxOuts)).foldl
        (· && ·) true
    if ¬ (hasValidTxIns = true) then false
    else
      let totalTxInValues : Int :=
        (transaction.txIns.map (fun txIn => getTxInAmount txIn aUnspentTxOuts)).foldl (· + ·) 0
      let totalTxOutValues : Int :=
        (transaction.txOuts.map (fun txOut => txOut.amount)).foldl (· + ·) 0
      if totalTxOutValues ≠ totalTxInValues then false else true

/-- transaction.ts: `validateCoinbaseTx`.  `none` as input models the JS
`undefined`/`null` first element of an empty block.  The output is `Option
Bool` because one branch of the source (`txIns.length !== 1`) executes a bare
`return;`, yielding `undefined` rather than a boolean; that is the `none`
result below.  All other branches return genuine booleans. -/
def validateCoinbaseTx (env : Env) (transaction? : Option Transaction)
    (blockIndex : Int) : Option Bool :=
  match transaction? with
  | none => some false
  | some transaction =>
    if getTransactionId env transaction ≠ transaction.id then some false
    else
      match transaction.txIns with
      | [txIn] =>
        if txIn.txOutIndex ≠ blockIndex then some false
        else
          match transaction.txOuts with
          | [txOut] => if txOut.amount ≠ COINBASE_AMOUNT then some false else some true
          | _ => some false
      | _ => none

/-- transaction.ts: the grouping key used by `hasDuplicates` —
`txIn.txOutId + txIn.txOutIndex` (string concatenation). -/
def txInKey (txIn : TxIn) : String :=
  txIn.txOutId ++ toString txIn.txOutIndex

/-- transaction.ts: `hasDuplicates` — lodash `countBy` on `txInKey`, true iff
some group has more than one member. -/
def hasDuplicates (txIns : List TxIn) : Bool :=
  let keys := txIns.map txInKey
  keys.any (fun key => 1 < keys.count key)

/-- JS truthiness of a `boolean | undefined` value, as applied by `!` in
`validateBlockTransactions` to the result of `validateCoinbaseTx`. -/
def jsTruthy : Option Bool → Bool
  | some b => b
  | none => false

/-- transaction.ts: `validateBlockTransactions` — coinbase check on
`aTransactions[0]`, then the no-duplicate-input check over the flattened txIns
of all transactions, then `validateTransaction` on every transaction after the
first (`slice(1)`), conjoined by `reduce(&&, true)`. -/
def validateBlockTransactions (env : Env) (aTransactions : List Transaction)
    (aUnspentTxOuts : List UnspentTxOut) (blockIndex : Int) : Bool :=
  if ¬ (jsTruthy (validateCoinbaseTx env aTransactions.head? blockIndex) = true) then false
  else
    let txIns : List TxIn := (aTransactions.map Transaction.txIns).foldl (· ++ ·) []
    if hasDuplicates txIns = true then false
    else
      ((aTransactions.drop 1).map
        (fun tx => validateTransaction env tx aUnspentTxOuts)).foldl (· && ·) true

/-- transaction.ts: `updateUnspentTxOuts` — fresh UTXOs (one per txOut of every
transaction, keyed by the transaction's id and the txOut's position), consumed
keys (dummy `UnspentTxOut`s built from every txIn), then
`filter(not consumed) ++ new`. -/
def updateUnspentTxOuts (aTransactions : List Transaction)
    (aUnspentTxOuts : List UnspentTxOut) : List UnspentTxOut :=
  let newUnspentTxOuts : List UnspentTxOut :=
    (aTransactions.map (fun t =>
      t.txOuts.enum.map (fun p => UnspentTxOut.mk t.id (p.1 : Int) p.2.address p.2.amount))).foldl
      (· ++ ·) []
  let consumedTxOuts : List UnspentTxOut :=
    ((aTransactions.map Transaction.txIns).foldl (· ++ ·) []).map
      (fun txIn => UnspentTxOut.mk txIn.txOutId txIn.txOutIndex "" 0)
  aUnspentTxOuts.filter
    (fun uTxO => (findUnspentTxOut uTxO.txOutId uTxO.txOutIndex consumedTxOuts).isNone)
    ++ newUnspentTxOuts

/-- transaction.ts: `processTransactions` — `null` (here `none`) when
`validateBlockTransactions` fails, otherwise the updated UTXO set. -/
def processTransactions (env : Env) (aTransactions : List Transaction)
    (aUnspentTxOuts : List UnspentTxOut) (blockIndex : Int) : Option (List UnspentTxOut) :=
  if ¬ (validateBlockTransactions env aTransactions aUnspentTxOuts blockIndex = true) then none
  else some (updateUnspentTxOuts aTransactions aUnspentTxOuts)

/-- blockchain.ts: class `Block`. -/
structure Block where
  index : Int
  hash : String
  previousHash : String
  timestamp : Int
  data : List Transaction
  difficulty : Int
  nonce : Int
deriving DecidableEq, Repr

/-- blockchain.ts: `genesisTransaction` (hard-coded literal). -/
def genesisTransaction : Transaction :=
  { id := "e655f6a5f26dc9b4cac6e46f52336428287759cf81ef5ff10854f69d68f43fa3"
    txIns := [{ txOutId := "", txOutIndex := 0, signature := "" }]
    txOuts := [{ address := "04bfcab8722991ae774db48f934ca79cfb7dd991229153b9f732ba5334aafcd8e7266e47076996b55a14bf9913ee3145ce0cfc1372ada8ada74bd287450313534a"
                 amount := 50 }] }

/-- blockchain.ts: `genesisBlock` (hard-coded literal). -/
def genesisBlock : Block :=
  { index := 0
    hash := "91a73664bc84c0baa1fc75ea6e4aa6d1d20c5df664c724e3159aefc2e1186627"
    previousHash := ""
    timestamp := 1465154705
    data := [genesisTransaction]
    difficulty := 0
    nonce := 0 }

/-- blockchain.ts: `BLOCK_GENERATION_INTERVAL` (seconds). -/
def BLOCK_GENERATION_INTERVAL : Int := 10

/-- blockchain.ts: `DIFFICULTY_ADJUSTMENT_INTERVAL` (blocks). -/
def DIFFICULTY_ADJUSTMENT_INTERVAL : Int := 10

/-- JS string coercion of a `Transaction[]` value, as produced by `+` in
`calculateHash`: each object stringifies to `[object Object]` and the array
joins them with commas. -/
def jsStringOfTxList (data : List Transaction) : String :=
  String.intercalate "," (data.map fun _ => "[object Object]")

/-- blockchain.ts: `calculateHash` — SHA256 of the JS string
`index + previousHash + timestamp + data + difficulty + nonce`. -/
def calculateHash (env : Env) (index : Int) (previousHash : String) (timestamp : Int)
    (data : List Transaction) (difficulty : Int) (nonce : Int) : String :=
  env.sha256 (toString index ++ previousHash ++ toString timestamp ++ jsStringOfTxList data
    ++ toString difficulty ++ toString nonce)

/-- blockchain.ts: `calculateHashForBlock`. -/
def calculateHashForBlock (env : Env) (block : Block) : String :=
  calculateHash env block.index block.previousHash block.timestamp block.data
    block.difficulty block.nonce

/-- Modelled from the spec: `hexToBinary` lives in `util.ts`, which is not
among the sources.  Per the spec the digest is "interpreted as a binary
string", each hexadecimal character contributing its four-bit binary
expansion (a non-hex character contributes nothing; digests are hex). -/
def hexCharBits : Char → String
  | '0' => "0000" | '1' => "0001" | '2' => "0010" | '3' => "0011"
  | '4' => "0100" | '5' => "0101" | '6' => "0110" | '7' => "0111"
  | '8' => "1000" | '9' => "1001" | 'a' => "1010" | 'b' => "1011"
  | 'c' => "1100" | 'd' => "1101" | 'e' => "1110" | 'f' => "1111"
  | _ => ""

/-- Modelled from the spec: the hex-to-binary conversion used by
`hashMatchesDifficulty` (see `hexCharBits`). -/
def hexToBinary (s : String) : String :=
  String.join (s.toList.map hexCharBits)

/-- blockchain.ts: `hashMatchesDifficulty` — the binary form of the hash must
start with `difficulty` zero characters (`'0'.repeat(difficulty)`; a negative
count would throw in JS, and `toNat` clamps it here — every use in the claims
has a non-negative difficulty).  The `startsWith` test is expressed over the
character list, which is the same predicate and evaluates by reduction. -/
def hashMatchesDifficulty (hash : String) (difficulty : Int) : Bool :=
  let hashInBinary : String := hexToBinary hash
  List.isPrefixOf (List.replicate difficulty.toNat '0') hashInBinary.toList

/-- blockchain.ts: `hashMatchesBlockContent`. -/
def hashMatchesBlockContent (env : Env) (block : Block) : Bool :=
  calculateHashForBlock env block == block.hash

/-- blockchain.ts: `hasValidHash`.  The source checks
`hashMatchesBlockContent` and returns false on mismatch, but the subsequent
`hashMatchesDifficulty` check only feeds a `console.log`: its result is
discarded and the function returns true regardless (the latent bug the spec
flags). -/
def hasValidHash (env : Env) (block : Block) : Bool :=
  if ¬ (hashMatchesBlockContent env block = true) then false
  else true

/-- blockchain.ts: `isValidTimestamp` — tolerance window of 60 seconds against
the previous block and against the current clock. -/
def isValidTimestamp (env : Env) (newBlock : Block) (previousBlock : Block) : Bool :=
  (previousBlock.timestamp - 60 < newBlock.timestamp)
    && (newBlock.timestamp - 60 < env.now)

/-- The `typeof` classes a JS value can exhibit, as far as
`isValidBlockStructure` distinguishes them. -/
inductive JType where
  | num | str | obj | undef | boolean | other
deriving DecidableEq, Repr

/-- A block as received from JSON before any type checking: only the `typeof`
class of each field is relevant to `isValidBlockStructure`. -/
structure RawBlock where
  index : JType
  hash : JType
  previousHash : JType
  timestamp : JType
  data : JType
  difficulty : JType
  nonce : JType
deriving DecidableEq, Repr

/-- blockchain.ts: `isValidBlockStructure` — `typeof` checks on index, hash,
previousHash, timestamp and data only; difficulty and nonce are never
inspected. -/
def isValidBlockStructure (block : RawBlock) : Bool :=
  block.index == JType.num
    && block.hash == JType.str
    && block.previousHash == JType.str
    && block.timestamp == JType.num
    && block.data == JType.obj

/-- The `typeof` classes of a typed `Block`'s fields (an array's `typeof` is
`'object'`). -/
def blockTypes (_block : Block) : RawBlock :=
  { index := JType.num, hash := JType.str, previousHash := JType.str,
    timestamp := JType.num, data := JType.obj, difficulty := JType.num, nonce := JType.num }

/-- blockchain.ts: `isValidNewBlock` — structure, index succession, previous
hash linkage, timestamp tolerance, then `hasValidHash`. -/
def isValidNewBlock (env : Env) (newBlock : Block) (previousBlock : Block) : Bool :=
  if ¬ (isValidBlockStructure (blockTypes newBlock) = true) then false
  else if previousBlock.index + 1 ≠ newBlock.index then false
  else if previousBlock.hash ≠ newBlock.previousHash then false
  else if ¬ (isValidTimestamp env newBlock previousBlock = true) then false
  else if ¬ (hasValidHash env newBlock = true) then false
  else true

/-- `Math.pow(2, difficulty)` for an integral difficulty, as a rational so that
a negative difficulty (reachable through retargeting) is represented exactly. -/
def pow2 (difficulty : Int) : Rat :=
  if 0 ≤ difficulty then ((2 : Rat) ^ difficulty.toNat)
  else 1 / ((2 : Rat) ^ (-difficulty).toNat)

/-- blockchain.ts: `getAccumulatedDifficulty` — map each block to
`2 ^ difficulty` and `reduce(+)`.  The source's `reduce` has no seed and would
throw on an empty array; it is only ever applied to nonempty chains, and the
empty case is given the inert value 0 here. -/
def getAccumulatedDifficulty (aBlockchain : List Block) : Rat :=
  match aBlockchain.map (fun block => pow2 block.difficulty) with
  | [] => 0
  | d :: ds => ds.foldl (· + ·) d

/-- blockchain.ts: the body of `isValidChain`'s `for` loop from index 1
onwards: each block must pass `isValidNewBlock` against its predecessor and
its transactions must process successfully against the running UTXO set. -/
def chainLoop (env : Env) : Block → List Block → List UnspentTxOut →
    Option (List UnspentTxOut)
  | _, [], aUnspentTxOuts => some aUnspentTxOuts
  | prev, currentBlock :: rest, aUnspentTxOuts =>
    if isValidNewBlock env currentBlock prev then
      match processTransactions env currentBlock.data aUnspentTxOuts currentBlock.index with
      | none => none
      | some aUnspentTxOuts2 => chainLoop env currentBlock rest aUnspentTxOuts2
    else none

/-- blockchain.ts: `isValidChain` — the first block must equal the hard-coded
genesis block (the source compares `JSON.stringify` images, which for the
canonically-ordered typed values of this embedding coincides with structural
equality; an empty chain fails the comparison against `undefined`), then the
loop of `chainLoop`, whose index-0 iteration only processes the genesis
block's transactions. -/
def isValidChain (env : Env) (blockchainToValidate : List Block) :
    Option (List UnspentTxOut) :=
  match blockchainToValidate with
  | [] => none
  | g :: rest =>
    if g = genesisBlock then
      match processTransactions env g.data [] g.index with
      | none => none
      | some aUnspentTxOuts => chainLoop env g rest aUnspentTxOuts
    else none

/-- The mutable module state of blockchain.ts: the `blockchain` array and the
`unspentTxOuts` array.  (The transaction pool lives in `transactionPool.ts`,
is not among the sources, and is not part of any claim's state.) -/
structure NodeState where
  blockchain : List Block
  unspentTxOuts : List UnspentTxOut
deriving DecidableEq, Repr

/-- blockchain.ts: `addBlockToChain` — validates against `getLatestBlock()`
(whose access on an empty chain would throw, modelled `none`; the chain is
never empty), processes the block's transactions against a copy of the current
UTXO set, and on success pushes the block and installs the returned set.  The
boolean is the source's return value. -/
def addBlockToChain (env : Env) (s : NodeState) (newBlock : Block) :
    Option (NodeState × Bool) :=
  match s.blockchain.getLast? with
  | none => none
  | some latestBlock =>
    if isValidNewBlock env newBlock latestBlock then
      match processTransactions env newBlock.data s.unspentTxOuts newBlock.index with
      | none => some (s, false)
      | some retVal =>
        some ({ blockchain := s.blockchain ++ [newBlock], unspentTxOuts := retVal }, true)
    else some (s, false)

/-- blockchain.ts: `replaceChain` — validate the candidate chain
(`validChain := aUnspentTxOuts !== null`); swap both chain and UTXO set iff it
is valid and its accumulated difficulty strictly exceeds the incumbent's;
otherwise leave the state untouched. -/
def replaceChain (env : Env) (s : NodeState) (newBlocks : List Block) : NodeState :=
  match isValidChain env newBlocks with
  | some aUnspentTxOuts =>
    if getAccumulatedDifficulty newBlocks > getAccumulatedDifficulty s.blockchain then
      { blockchain := newBlocks, unspentTxOuts := aUnspentTxOuts }
    else s
  | none => s

/-- JS array indexing with a possibly negative index: `a[i]` is `undefined`
outside the range. -/
def jsIndex (l : List Block) (i : Int) : Option Block :=
  if i < 0 then none else l.get? i.toNat

/-- blockchain.ts: `getAdjustedDifficulty`.  Note the source indexes the
parameter `aBlockchain` with the length of the module-global `blockchain`
array; both are therefore passed here.  A failed index would dereference
`undefined` (modelled `none`). -/
def getAdjustedDifficulty (blockchain : List Block) (latestBlock : Block)
    (aBlockchain : List Block) : Option Int :=
  match jsIndex aBlockchain ((blockchain.length : Int) - DIFFICULTY_ADJUSTMENT_INTERVAL) with
  | none => none
  | some prevAdjustmentBlock =>
    let timeExpected : Int := BLOCK_GENERATION_INTERVAL * DIFFICULTY_ADJUSTMENT_INTERVAL
    let timeTaken : Int := latestBlock.timestamp - prevAdjustmentBlock.timestamp
    if timeTaken < timeExpected / 2 then some (prevAdjustmentBlock.difficulty + 1)
    else if timeTaken > timeExpected * 2 then some (prevAdjustmentBlock.difficulty - 1)
    else some prevAdjustmentBlock.difficulty

/-- blockchain.ts: `getDifficulty`.  As in `getAdjustedDifficulty`, the latest
block is read from the parameter at the index given by the global chain's
length (the sole caller passes the global chain for both).  `Int.tmod` is the
JS `%` (truncating, sign of the dividend). -/
def getDifficulty (blockchain : List Block) (aBlockchain : List Block) : Option Int :=
  match jsIndex aBlockchain ((blockchain.length : Int) - 1) with
  | none => none
  | some latestBlock =>
    if latestBlock.index.tmod DIFFICULTY_ADJUSTMENT_INTERVAL = 0 ∧ latestBlock.index ≠ 0 then
      getAdjustedDifficulty blockchain latestBlock aBlockchain
    else some latestBlock.difficulty

/-- Spec-side definition (claim C2, spec §8): the UTXO set implied by a chain
is the fold of `processTransactions` over its blocks in order, starting from
the empty set. -/
def deriveUtxo (env : Env) (chain : List Block) : Option (List UnspentTxOut) :=
  chain.foldl
    (fun acc block => acc.bind (fun u => processTransactions env block.data u block.index))
    (some [])

/-- Spec-side definition (claim C4): every block after the first passes
`isValidNewBlock` against its predecessor. -/
def specChainPairsValid (env : Env) : List Block → Bool
  | [] => true
  | [_] => true
  | a :: b :: rest => isValidNewBlock env b a && specChainPairsValid env (b :: rest)

/-- Spec-side definition (claim C5): the successful result of
`applyTransactions` in the spec's words — the input set with every UTXO
referenced by any txIn removed, followed by one new UTXO per txOut of every
transaction, keyed by that transaction's id and the output's position. -/
def specApplyResult (aTransactions : List Transaction)
    (aUnspentTxOuts : List UnspentTxOut) : List UnspentTxOut :=
  aUnspentTxOuts.filter
    (fun uTxO => !((aTransactions.map Transaction.txIns).flatten.any
      (fun txIn => txIn.txOutId == uTxO.txOutId && txIn.txOutIndex == uTxO.txOutIndex)))
    ++ (aTransactions.map (fun t =>
         t.txOuts.enum.map (fun p => UnspentTxOut.mk t.id (p.1 : Int) p.2.address p.2.amount))).flatten

/-- Claim C2's reachable engine states: the genesis state (chain
`[genesisBlock]`, UTXO set as initialized at module load from the genesis
block's transactions), closed under successful `addBlockToChain` and under
`replaceChain`. -/
inductive Reachable (env : Env) : NodeState → Prop where
  | init : ∀ u0, processTransactions env genesisBlock.data [] 0 = some u0 →
      Reachable env { blockchain := [genesisBlock], unspentTxOuts := u0 }
  | addBlock : ∀ s s' b, Reachable env s → addBlockToChain env s b = some (s', true) →
      Reachable env s'
  | replace : ∀ s nb, Reachable env s → Reachable env (replaceChain env s nb)

/-! Concrete instances used by the witnesses and counterexamples below. -/

/-- A concrete environment whose digest function is constantly the genesis
transaction's id (so that every id check against it succeeds) and whose
signature verifier accepts; the clock equals the genesis timestamp. -/
def env0 : Env :=
  { sha256 := fun _ => genesisTransaction.id
    ecVerify := fun _ _ _ => true
    now := 1465154705 }

/-- A concrete environment whose digest function is constantly `"ff"`, a
digest with no leading zero bit. -/
def env1 : Env :=
  { sha256 := fun _ => "ff", ecVerify := fun _ _ _ => true, now := 2000 }

/-- The UTXO set produced by processing the genesis block's transactions. -/
def u0val : List UnspentTxOut :=
  [{ txOutId := genesisTransaction.id, txOutIndex := 0
     address := "04bfcab8722991ae774db48f934ca79cfb7dd991229153b9f732ba5334aafcd8e7266e47076996b55a14bf9913ee3145ce0cfc1372ada8ada74bd287450313534a"
     amount := 50 }]

/-- A coinbase transaction for block index 1, with an id matching `env0`'s
constant digest. -/
def cb2 : Transaction :=
  { id := genesisTransaction.id
    txIns := [{ txOutId := "", txOutIndex := 1, signature := "" }]
    txOuts := [{ address := "a", amount := 50 }] }

/-- A valid (under `env0`) difficulty-0 successor of the genesis block. -/
def b2 : Block :=
  { index := 1, hash := genesisTransaction.id, previousHash := genesisBlock.hash
    timestamp := 1465154705, data := [cb2], difficulty := 0, nonce := 0 }

/-- An incumbent difficulty-0 successor of the genesis block (a competing tip
with the same accumulated difficulty as `b2`'s chain). -/
def b1 : Block :=
  { index := 1, hash := "h1", previousHash := genesisBlock.hash
    timestamp := 1465154705, data := [], difficulty := 0, nonce := 0 }

/-- An incumbent node state holding the chain `[genesisBlock, b1]`. -/
def s0 : NodeState := { blockchain := [genesisBlock, b1], unspentTxOuts := [] }

/-- The UTXO set implied by the chain `[genesisBlock, b2]`. -/
def u2val : List UnspentTxOut :=
  u0val ++ [{ txOutId := genesisTransaction.id, txOutIndex := 0, address := "a", amount := 50 }]

/-- A previous block for the claim C1 counter-scenario. -/
def c1prev : Block :=
  { index := 0, hash := "ph", previousHash := "", timestamp := 1000
    data := [], difficulty := 0, nonce := 0 }

/-- A candidate block that declares difficulty 1 but whose hash `"ff"` (which
is also what `env1`'s digest computes for its content) has no leading zero
bit. -/
def c1cand : Block :=
  { index := 1, hash := "ff", previousHash := "ph", timestamp := 1000
    data := [], difficulty := 1, nonce := 0 }

/-- A transaction with exactly one txIn (whose `txOutIndex` is 0) and exactly
one txOut of amount 50, but whose id does not match the recomputed digest. -/
def txA : Transaction :=
  { id := "deadbeef"
    txIns := [{ txOutId := "", txOutIndex := 0, signature := "" }]
    txOuts := [{ address := "a", amount := 50 }] }

/-- A transaction with a matching id but two txIns. -/
def txB : Transaction :=
  { id := genesisTransaction.id
    txIns := [{ txOutId := "", txOutIndex := 0, signature := "" },
              { txOutId := "x", txOutIndex := 0, signature := "" }]
    txOuts := [{ address := "a", amount := 50 }] }

/-- First colliding input: `(txOutId, txOutIndex) = ("a1", 2)`. -/
def txIn9a : TxIn := { txOutId := "a1", txOutIndex := 2, signature := "" }

/-- Second colliding input: `(txOutId, txOutIndex) = ("a", 12)` — a distinct
pair whose concatenated key is also `"a12"`. -/
def txIn9b : TxIn := { txOutId := "a", txOutIndex := 12, signature := "" }

/-- A transaction carrying `txIn9a`. -/
def t9a : Transaction := { id := "ta", txIns := [txIn9a], txOuts := [] }

/-- A transaction carrying `txIn9b`. -/
def t9b : Transaction := { id := "tb", txIns := [txIn9b], txOuts := [] }

/-- A block-transaction list (coinbase first) whose txIns reference
pairwise-distinct UTXOs yet collide under the concatenated grouping key. -/
def c9txs : List Transaction := [cb2, t9a, t9b]

/-- A block of index `n` at timestamp `n` with difficulty 0. -/
def c8blk (n : Nat) : Block :=
  { index := (n : Int), hash := "", previousHash := "", timestamp := (n : Int)
    data := [], difficulty := 0, nonce := 0 }

/-- An 11-block chain whose latest block (index 10) sits on a retargeting
boundary and was produced much faster than the expected 100 seconds. -/
def c8chain : List Block := (List.range 11).map c8blk

/-- A raw block whose five checked fields are well-typed while `difficulty` is
missing (`undefined`) and `nonce` has a wrong type. -/
def c10raw : RawBlock :=
  { index := JType.num, hash := JType.str, previousHash := JType.str
    timestamp := JType.num, data := JType.obj
    difficulty := JType.undef, nonce := JType.boolean }

/-! Helper lemmas shared by the claim theorems. -/

/-- A left fold of `++` is the accumulator followed by the flattening (the
shape `reduce(concat, [])` takes in the sources). -/
theorem foldl_append_eq {α : Type} (l : List (List α)) (acc : List α) :
    l.foldl (· ++ ·) acc = acc ++ l.flatten := by
  induction l generalizing acc with
  | nil => simp
  | cons x xs ih => simp [List.foldl_cons, ih, List.append_assoc]

/-- A left fold of `&&` is the conjunction of the accumulator with `all` (the
shape `reduce((a, b) => a && b, true)` takes in the sources). -/
theorem foldl_and_eq (l : List Bool) (b : Bool) :
    l.foldl (· && ·) b = (b && l.all id) := by
  induction l generalizing b with
  | nil => simp
  | cons x xs ih => simp [List.foldl_cons, ih, Bool.and_assoc]

/-- A left fold of `+` is the accumulator plus the sum (the shape
`reduce((a, b) => a + b, 0)` takes in the sources). -/
theorem foldl_add_eq (l : List Int) (a : Int) :
    l.foldl (· + ·) a = a + l.sum := by
  induction l generalizing a with
  | nil => simp
  | cons x xs ih => simp [List.foldl_cons, ih, List.sum_cons]; ring

/-- Resolving a key among the dummy `UnspentTxOut`s built from a txIn list
fails exactly when no txIn references that key. -/
theorem find_consumed_isNone (u : UnspentTxOut) (ins : List TxIn) :
    (findUnspentTxOut u.txOutId u.txOutIndex
      (ins.map (fun txIn => UnspentTxOut.mk txIn.txOutId txIn.txOutIndex "" 0))).isNone
    = !(ins.any (fun txIn => txIn.txOutId == u.txOutId && txIn.txOutIndex == u.txOutIndex)) := by
  induction ins with
  | nil => rfl
  | cons i tl ih =>
    simp only [List.map_cons, findUnspentTxOut, List.any_cons] at *
    cases h : (i.txOutId == u.txOutId && i.txOutIndex == u.txOutIndex) with
    | true => simp [List.find?_cons, h]
    | false => simpa [List.find?_cons, h] using ih

/-- `updateUnspentTxOuts` computes exactly the spec-side result: consumed
outputs filtered away, fresh outputs appended. -/
theorem updateUnspentTxOuts_eq_spec (txs : List Transaction) (utxos : List UnspentTxOut) :
    updateUnspentTxOuts txs utxos = specApplyResult txs utxos := by
  unfold updateUnspentTxOuts specApplyResult
  rw [foldl_append_eq, foldl_append_eq]
  simp only [List.nil_append]
  congr 1
  apply List.filter_congr
  intro u _
  exact find_consumed_isNone u ((txs.map Transaction.txIns).flatten)

/-- A successful run of `isValidChain`'s loop coincides with the plain fold of
`processTransactions` from the loop's starting UTXO set. -/
theorem chainLoop_fold (env : Env) (rest : List Block) :
    ∀ (prev : Block) (aU : List UnspentTxOut) (u : List UnspentTxOut),
    chainLoop env prev rest aU = some u →
    rest.foldl
      (fun acc block => acc.bind (fun v => processTransactions env block.data v block.index))
      (some aU) = some u := by
  induction rest with
  | nil => intro prev aU u h; simpa [chainLoop] using h
  | cons b tl ih =>
    intro prev aU u h
    simp only [chainLoop] at h
    split at h
    · cases hp : processTransactions env b.data aU b.index with
      | none => rw [hp] at h; cases h
      | some aU2 =>
        rw [hp] at h
        simpa [List.foldl_cons, hp] using ih b aU2 u h
    · cases h

/-- A successful run of `isValidChain`'s loop certifies that every block in it
passed `isValidNewBlock` against its predecessor. -/
theorem chainLoop_pairs (env : Env) (rest : List Block) :
    ∀ (prev : Block) (aU : List UnspentTxOut) (u : List UnspentTxOut),
    chainLoop env prev rest aU = some u →
    specChainPairsValid env (prev :: rest) = true := by
  induction rest with
  | nil => intro prev aU u _; rfl
  | cons b tl ih =>
    intro prev aU u h
    simp only [chainLoop] at h
    split at h
    case isTrue hv =>
      cases hp : processTransactions env b.data aU b.index with
      | none => rw [hp] at h; cases h
      | some aU2 =>
        rw [hp] at h
        simpa [specChainPairsValid, hv] using ih b aU2 u h
    case isFalse hv => cases h

/-- A chain accepted by `isValidChain` derives, by the plain fold, exactly the
UTXO set `isValidChain` returned. -/
theorem isValidChain_deriveUtxo (env : Env) (c : List Block) (u : List UnspentTxOut)
    (h : isValidChain env c = some u) : deriveUtxo env c = some u := by
  cases c with
  | nil => simp [isValidChain] at h
  | cons g rest =>
    simp only [isValidChain] at h
    split at h
    case isTrue hg =>
      cases hp : processTransactions env g.data [] g.index with
      | none => rw [hp] at h; cases h
      | some aU =>
        rw [hp] at h
        unfold deriveUtxo
        simpa [List.foldl_cons, hp] using chainLoop_fold env rest g aU u h
    case isFalse hg => cases h

/-! Claim theorems. -/

/-- Claim C1 (code bug evaluation): `isValidNewBlock` accepts the candidate
`c1cand` over `c1prev` even though the candidate's hash does not meet its
declared difficulty, because `hasValidHash` only logs the difficulty mismatch
and still returns true. -/
theorem isValidNewBlock_ignores_difficulty :
    hashMatchesDifficulty c1cand.hash c1cand.difficulty = false
    ∧ isValidNewBlock env1 c1cand c1prev = true := by
  exact ⟨by decide, by decide⟩

/-- Claim C10: `isValidBlockStructure` returns true whenever index and
timestamp are numbers, hash and previousHash are strings, and data is an
object — for arbitrary (including missing or mistyped) difficulty and nonce
fields. -/
theorem isValidBlockStructure_checks_five_fields (b : RawBlock)
    (h1 : b.index = JType.num) (h2 : b.hash = JType.str)
    (h3 : b.previousHash = JType.str) (h4 : b.timestamp = JType.num)
    (h5 : b.data = JType.obj) :
    isValidBlockStructure b = true := by
  simp [isValidBlockStructure, h1, h2, h3, h4, h5]

/-- Witness for claim C10: a raw block with `undefined` difficulty and a
boolean nonce still passes the structure check. -/
theorem isValidBlockStructure_checks_five_fields_witness :
    isValidBlockStructure c10raw = true :=
  isValidBlockStructure_checks_five_fields c10raw rfl rfl rfl rfl rfl

/-- Claim C9: the txIns `("a1", 2)` and `("a", 12)` are distinct yet share the
concatenated grouping key `"a12"`, so `hasDuplicates` reports a duplicate; on
the block-transaction list `c9txs`, whose inputs reference pairwise-distinct
UTXOs, `validateBlockTransactions` consequently returns false. -/
theorem hasDuplicates_key_not_injective :
    txInKey txIn9a = txInKey txIn9b
    ∧ (txIn9a.txOutId, txIn9a.txOutIndex) ≠ (txIn9b.txOutId, txIn9b.txOutIndex)
    ∧ hasDuplicates [txIn9a, txIn9b] = true
    ∧ (c9txs.map Transaction.txIns).flatten.Pairwise
        (fun i j => (i.txOutId, i.txOutIndex) ≠ (j.txOutId, j.txOutIndex))
    ∧ validateBlockTransactions env0 c9txs [] 1 = false := by
  refine ⟨rfl, by decide, rfl, by decide, rfl⟩

/-- Claim C7 (counterexample): `txA` has exactly one txIn whose `txOutIndex`
equals the block index 0 and exactly one txOut of amount 50, yet
`validateCoinbaseTx` returns false for it (its id check fails); and on `txB`
(matching id, two txIns) the function returns `undefined` — not a boolean at
all. -/
theorem validateCoinbaseTx_claim_fails :
    (txA.txIns.length = 1 ∧ txA.txIns.head?.map TxIn.txOutIndex = some 0
      ∧ txA.txOuts.length = 1 ∧ txA.txOuts.head?.map TxOut.amount = some 50)
    ∧ validateCoinbaseTx env0 (some txA) 0 = some false
    ∧ validateCoinbaseTx env0 (some txB) 0 = none := by
  exact ⟨⟨rfl, rfl, rfl, rfl⟩, rfl, rfl⟩

/-- Claim C3: `replaceChain` swaps the chain and UTXO set to the candidate's
exactly when `isValidChain` succeeds and the candidate's accumulated
difficulty strictly exceeds the incumbent's; in every other case — an invalid
candidate, or an accumulated difficulty that is lower or exactly tied — the
incumbent state is left untouched. -/
theorem replaceChain_heaviest_wins (env : Env) (s : NodeState) (newBlocks : List Block) :
    (∀ u, isValidChain env newBlocks = some u →
      getAccumulatedDifficulty newBlocks > getAccumulatedDifficulty s.blockchain →
      replaceChain env s newBlocks = { blockchain := newBlocks, unspentTxOuts := u })
    ∧ (∀ u, isValidChain env newBlocks = some u →
      ¬ getAccumulatedDifficulty newBlocks > getAccumulatedDifficulty s.blockchain →
      replaceChain env s newBlocks = s)
    ∧ (isValidChain env newBlocks = none → replaceChain env s newBlocks = s) := by
  refine ⟨fun u hu hgt => ?_, fun u hu hle => ?_, fun hn => ?_⟩
  · simp [replaceChain, hu, hgt]
  · simp [replaceChain, hu, hle]
  · simp [replaceChain, hn]

/-- Witness for claim C3 (the tie scenario): the candidate `[genesisBlock, b2]`
is valid under `env0` but ties the incumbent `s0` at accumulated difficulty 2,
so `replaceChain` keeps the incumbent state. -/
theorem replaceChain_heaviest_wins_witness :
    replaceChain env0 s0 [genesisBlock, b2] = s0 :=
  (replaceChain_heaviest_wins env0 s0 [genesisBlock, b2]).2.1 u2val (by decide)
    (by norm_num [getAccumulatedDifficulty, s0, b1, b2, genesisBlock, pow2])

/-- Claim C4: a candidate chain whose first block differs by value from the
hard-coded genesis block is rejected by `isValidChain` regardless of what
follows; and whenever `isValidChain` accepts a chain, its first block equals
the genesis block, every subsequent block passed `isValidNewBlock` against its
predecessor, and the returned UTXO set is the incremental application of every
block's transactions. -/
theorem isValidChain_genesis_anchored (env : Env) (c : List Block) :
    (c.head? ≠ some genesisBlock → isValidChain env c = none)
    ∧ (∀ u, isValidChain env c = some u →
        c.head? = some genesisBlock
        ∧ specChainPairsValid env c = true
        ∧ deriveUtxo env c = some u) := by
  constructor
  · intro hne
    cases c with
    | nil => rfl
    | cons g rest =>
      simp only [List.head?_cons, ne_eq, Option.some.injEq] at hne
      simp [isValidChain, hne]
  · intro u hu
    cases c with
    | nil => simp [isValidChain] at hu
    | cons g rest =>
      have hvc := hu
      simp only [isValidChain] at hu
      split at hu
      case isTrue hg =>
        subst hg
        cases hp : processTransactions env genesisBlock.data [] genesisBlock.index with
        | none => rw [hp] at hu; cases hu
        | some aU =>
          rw [hp] at hu
          exact ⟨rfl, chainLoop_pairs env rest genesisBlock aU u hu,
            isValidChain_deriveUtxo env (genesisBlock :: rest) u hvc⟩
      case isFalse hg => cases hu

/-- Witness for claim C4: a chain starting at `b1` (≠ genesis) is rejected. -/
theorem isValidChain_genesis_anchored_witness :
    isValidChain env0 [b1] = none :=
  (isValidChain_genesis_anchored env0 [b1]).1 (by decide)

/-- Claim C5: `processTransactions` returns no result exactly when
`validateBlockTransactions` fails; on success it returns the input UTXO set
with every output referenced by any txIn removed and one fresh UTXO appended
per txOut of every transaction, keyed by that transaction's id and the
output's position (on failure, no removal or addition is performed — there is
no partial result). -/
theorem processTransactions_atomic (env : Env) (txs : List Transaction)
    (utxos : List UnspentTxOut) (blockIndex : Int) :
    (processTransactions env txs utxos blockIndex = none
      ↔ validateBlockTransactions env txs utxos blockIndex = false)
    ∧ (validateBlockTransactions env txs utxos blockIndex = true →
        processTransactions env txs utxos blockIndex = some (specApplyResult txs utxos)) := by
  constructor
  · cases hv : validateBlockTransactions env txs utxos blockIndex with
    | true => simp [processTransactions, hv]
    | false => simp [processTransactions, hv]
  · intro hv
    simp [processTransactions, hv, updateUnspentTxOuts_eq_spec]

/-- Witness for claim C5: processing the genesis block's transactions on the
empty UTXO set succeeds and produces the spec-side result. -/
theorem processTransactions_atomic_witness :
    processTransactions env0 genesisBlock.data [] 0
      = some (specApplyResult genesisBlock.data []) :=
  (processTransactions_atomic env0 genesisBlock.data [] 0).2 (by decide)

/-- Claim C6: `validateTransaction` accepts exactly when the structural shape
is valid, the recomputed id equals `tx.id`, every txIn passes `validateTxIn`,
and the sum of the output amounts equals the sum of the resolved input
amounts; it returns false whenever any of these checks fails. -/
theorem validateTransaction_spec (env : Env) (tx : Transaction) (utxos : List UnspentTxOut) :
    validateTransaction env tx utxos = true ↔
      (isValidTransactionStructure tx = true
       ∧ getTransactionId env tx = tx.id
       ∧ (∀ txIn ∈ tx.txIns, validateTxIn env txIn tx utxos = true)
       ∧ (tx.txOuts.map TxOut.amount).sum
           = (tx.txIns.map (fun txIn => getTxInAmount txIn utxos)).sum) := by
  unfold validateTransaction
  simp only [foldl_add_eq, zero_add, foldl_and_eq, Bool.true_and, List.all_map,
    Function.comp_def, id_eq]
  split_ifs with h1 h2 h3 h4
  · simp_all
  · simp_all
  · simp_all [List.all_eq_true]
  · simp_all [List.all_eq_true]
  · simp_all [List.all_eq_true]

/-- Claim C7 (amended): `validateCoinbaseTx` on a present transaction returns
true iff the recomputed id matches `tx.id`, there is exactly one txIn whose
`txOutIndex` equals the block index, and exactly one txOut whose amount is the
fixed reward 50; a missing transaction yields false, and a matching id with a
txIn count different from one yields `undefined` (not a boolean). -/
theorem validateCoinbaseTx_spec (env : Env) (t : Transaction) (blockIndex : Int) :
    (validateCoinbaseTx env none blockIndex = some false)
    ∧ (validateCoinbaseTx env (some t) blockIndex = some true ↔
        (getTransactionId env t = t.id
         ∧ (∃ txIn, t.txIns = [txIn] ∧ txIn.txOutIndex = blockIndex)
         ∧ (∃ txOut, t.txOuts = [txOut] ∧ txOut.amount = COINBASE_AMOUNT)))
    ∧ (getTransactionId env t = t.id → t.txIns.length ≠ 1 →
        validateCoinbaseTx env (some t) blockIndex = none) := by
  refine ⟨rfl, ?_, ?_⟩
  · by_cases hid : getTransactionId env t = t.id
    · cases hins : t.txIns with
      | nil => simp [validateCoinbaseTx, hid, hins]
      | cons i tl =>
        cases tl with
        | nil =>
          by_cases hidx : i.txOutIndex = blockIndex
          · cases houts : t.txOuts with
            | nil => simp [validateCoinbaseTx, hid, hins, hidx, houts]
            | cons o tlo =>
              cases tlo with
              | nil =>
                by_cases hamt : o.amount = COINBASE_AMOUNT
                · simp [validateCoinbaseTx, hid, hins, hidx, houts, hamt]
                · simp [validateCoinbaseTx, hid, hins, hidx, houts, hamt]
              | cons o2 tlo2 => simp [validateCoinbaseTx, hid, hins, hidx, houts]
          · simp [validateCoinbaseTx, hid, hins, hidx]
        | cons j tl2 => simp [validateCoinbaseTx, hid, hins]
    · simp [validateCoinbaseTx, hid]
  · intro hid hlen
    cases hins : t.txIns with
    | nil => simp [validateCoinbaseTx, hid, hins]
    | cons i tl =>
      cases tl with
      | nil => exact absurd (by rw [hins]; rfl) hlen
      | cons j tl2 => simp [validateCoinbaseTx, hid, hins]

/-- Witness for claim C7 (amended): on `txB` (matching id, two txIns) the
function returns `undefined`. -/
theorem validateCoinbaseTx_spec_witness :
    validateCoinbaseTx env0 (some txB) 0 = none :=
  (validateCoinbaseTx_spec env0 txB 0).2.2 (by decide) (by decide)

/-- Claim C8: `getDifficulty` (invoked, as at its sole call site, with the
current chain as both the global and the argument) returns the latest block's
difficulty away from retargeting boundaries; at a boundary (index a nonzero
multiple of 10) it returns the previous adjustment block's difficulty plus one
when the interval took less than half the expected `10 * 10` seconds, minus
one when it took more than twice that, and unchanged otherwise. -/
theorem getDifficulty_spec (chain : List Block) (latest : Block)
    (hlast : jsIndex chain ((chain.length : Int) - 1) = some latest) :
    (¬ (latest.index.tmod DIFFICULTY_ADJUSTMENT_INTERVAL = 0 ∧ latest.index ≠ 0) →
      getDifficulty chain chain = some latest.difficulty)
    ∧ (∀ prevAdjustmentBlock,
        latest.index.tmod DIFFICULTY_ADJUSTMENT_INTERVAL = 0 → latest.index ≠ 0 →
        jsIndex chain ((chain.length : Int) - DIFFICULTY_ADJUSTMENT_INTERVAL)
          = some prevAdjustmentBlock →
        getDifficulty chain chain = some (
          if latest.timestamp - prevAdjustmentBlock.timestamp
              < BLOCK_GENERATION_INTERVAL * DIFFICULTY_ADJUSTMENT_INTERVAL / 2
          then prevAdjustmentBlock.difficulty + 1
          else if latest.timestamp - prevAdjustmentBlock.timestamp
              > BLOCK_GENERATION_INTERVAL * DIFFICULTY_ADJUSTMENT_INTERVAL * 2
          then prevAdjustmentBlock.difficulty - 1
          else prevAdjustmentBlock.difficulty)) := by
  constructor
  · intro hnb
    simp [getDifficulty, hlast, hnb]
  · intro prevAdjustmentBlock h1 h2 hprev
    simp only [getDifficulty, getAdjustedDifficulty, hlast, hprev, h1, h2, ne_eq,
      not_false_iff, and_self, if_true]
    split_ifs <;> rfl

/-- Witness for claim C8: on the 11-block chain `c8chain` (latest index 10,
interval mined in 9 seconds against the expected 100) the next difficulty is
the previous adjustment block's difficulty 0 plus 1. -/
theorem getDifficulty_spec_witness : getDifficulty c8chain c8chain = some 1 := by
  have h := (getDifficulty_spec c8chain (c8blk 10) (by decide)).2 (c8blk 1)
    (by decide) (by decide) (by decide)
  simpa [c8blk, BLOCK_GENERATION_INTERVAL, DIFFICULTY_ADJUSTMENT_INTERVAL] using h

/-- Claim C2: in every state reachable from the genesis state by successful
`addBlockToChain` steps and `replaceChain` calls, the held UTXO set is exactly
the fold of `processTransactions` over the held chain from the empty set, and
that derivation is deterministic (any set the fold produces is the held
one). -/
theorem utxoSet_is_chain_fold (env : Env) (s : NodeState) (h : Reachable env s) :
    deriveUtxo env s.blockchain = some s.unspentTxOuts
    ∧ ∀ u', deriveUtxo env s.blockchain = some u' → u' = s.unspentTxOuts := by
  have main : deriveUtxo env s.blockchain = some s.unspentTxOuts := by
    induction h with
    | init u0 h0 =>
      simpa [deriveUtxo, genesisBlock] using h0
    | addBlock s s' b hs hstep ih =>
      unfold addBlockToChain at hstep
      split at hstep
      · simp at hstep
      · split at hstep
        · split at hstep
          · simp at hstep
          · rename_i r hp
            simp only [Option.some.injEq, Prod.mk.injEq] at hstep
            obtain ⟨hs', -⟩ := hstep
            subst hs'
            simp only [deriveUtxo, List.foldl_append, List.foldl_cons, List.foldl_nil]
            rw [show s.blockchain.foldl
                (fun acc block => acc.bind fun u => processTransactions env block.data u block.index)
                (some []) = some s.unspentTxOuts from ih]
            simpa using hp
        · simp at hstep
    | replace s nb hs ih =>
      unfold replaceChain
      cases hic : isValidChain env nb with
      | none => simpa using ih
      | some u =>
        by_cases hgt : getAccumulatedDifficulty nb > getAccumulatedDifficulty s.blockchain
        · simpa [hgt] using isValidChain_deriveUtxo env nb u hic
        · simpa [hgt] using ih
  exact ⟨main, fun u' h' => by rw [main] at h'; exact (Option.some.inj h').symm⟩

/-- Witness for claim C2: the genesis state itself, whose UTXO set is the one
derived from the genesis block. -/
theorem utxoSet_is_chain_fold_witness :
    deriveUtxo env0 [genesisBlock] = some u0val :=
  (utxoSet_is_chain_fold env0 { blockchain := [genesisBlock], unspentTxOuts := u0val }
    (Reachable.init u0val (by decide))).1
